import Mathlib

/-!
Shallow embedding of `dockerscope.go` (package dockerscope): a Docker-style
image archive retagger.  Machine model:

* Time (`time.Time`) is modelled as `Int` (epoch instants); `a.After b` is
  `b < a`, and Go's `sort.Sort` postcondition for `ByCreated` (whose `Less`
  is `After`) is "created timestamps non-increasing", modelled by
  `List.insertionSort` with the relation `createdGe`.
* A JSON repositories file is modelled post-parse: either `malformed`
  (`json.Unmarshal` into `map[string]interface{}` fails) or an object given
  as an association list of repository name to tag map.  A tag map
  (`map[string]string` or an opaque `interface{}` value holding one) is an
  association list of tag to layer id.
* A layer config file (`json` file inside a layer directory) is modelled by
  the outcome the Go code observes: unreadable (`ioutil.ReadFile` fails,
  e.g. the path is a directory), JSON that does not unmarshal, a JSON object
  whose `created` field is absent or not a string, a `created` string that
  is not RFC 3339, or a successfully parsed creation instant.
* The filesystem tree handled by `SetName` is a pair of the repositories
  file state and the list of walk entries (`filepath.Walk` order) of the
  rest of the extracted tree.  Fallible external effects (file lock, untar,
  read, marshal, write, tar) are driven by an `Env` of success flags so the
  theorems can quantify over every failure point the Go code checks.
-/

namespace Dockerscope

/-- Fixed per-layer config filename (`layerConfigFile = "json"` in the source). -/
def layerConfigFile : String := "json"

/-- A filesystem layer: `type Layer struct { Id string; Created time.Time }`. -/
structure Layer where
  Id : String
  Created : Int
deriving DecidableEq, Repr

/-- Go sort postcondition relation for `ByCreated` (Less is `Created.After`):
the resulting slice has non-increasing creation times. -/
def createdGe (a b : Layer) : Prop := b.Created ≤ a.Created

instance : DecidableRel createdGe :=
  fun a b => inferInstanceAs (Decidable (b.Created ≤ a.Created))

instance : IsTotal Layer createdGe := ⟨fun a b => le_total b.Created a.Created⟩

instance : IsTrans Layer createdGe := ⟨fun _ _ _ h1 h2 => le_trans h2 h1⟩

/-- Model of `sort.Sort(ByCreated(layers))`: some permutation of `layers`
that is non-increasing in `Created`. -/
def sortLayers (l : List Layer) : List Layer := List.insertionSort createdGe l

/-- The image handle: `type Image struct { PathToSource string; Layers []*Layer; ... }`
(the working-copy path is part of the filesystem state, not the handle). -/
structure GoImage where
  PathToSource : String
  Layers : List Layer
deriving DecidableEq, Repr

/-- Tag name to layer id mapping: the value under one repository name. -/
abbrev TagMap := List (String × String)

/-- Post-parse content of the `repositories` file. -/
inductive RepoFileData where
  | malformed
  | obj (entries : List (String × TagMap))
deriving DecidableEq, Repr

/-- What the Go code observes when it reads and parses one layer config file. -/
inductive LayerFileContent where
  | unreadable
  | badJson
  | createdNotString
  | badTimeFormat
  | createdAt (t : Int)
deriving DecidableEq, Repr

/-- One entry of the `filepath.Walk` over the working copy whose final path
component is a candidate file name: `dir` is the containing directory as path
components relative to the working-copy root, `name` the file name. -/
structure WalkEntry where
  dir : List String
  name : String
  content : LayerFileContent
deriving DecidableEq, Repr

/-- Layer id of a walk entry: `filepath.Base(dir)`, the last component of the
containing directory, or the working-copy root directory name for a file
sitting directly in the root. -/
def layerIdOf (rootBase : String) (e : WalkEntry) : String := e.dir.getLastD rootBase

/-- Extracted tree: the `repositories` file (present with parsed content, or
absent) plus the walk entries of everything else. -/
structure Tree where
  repo : Option RepoFileData
  files : List WalkEntry
deriving DecidableEq, Repr

/-- Filesystem state seen by one image: content of the source archive
(as the tree it encodes) and content of the private working copy. -/
structure FsState where
  source : Tree
  working : Tree
deriving DecidableEq, Repr

/-- Success flags for the fallible external effects of `SetName`, one per
error check in the Go code. -/
structure Env where
  lockOk : Bool
  untarOk : Bool
  newJsonOk : Bool
  readOk : Bool
  retagJsonOk : Bool
  writeOk : Bool
  tarOk : Bool
deriving DecidableEq, Repr

/-- The environment in which every external effect succeeds. -/
def envAllOk : Env := ⟨true, true, true, true, true, true, true⟩

/-- Error taxonomy of `SetName`, one constructor per `return fmt.Errorf` site. -/
inductive RetagErr where
  | lockFailed
  | untarFailed
  | noLayers
  | newRepoJsonFailed
  | repoReadFailed
  | schemaErr
  | retagJsonFailed
  | repoWriteFailed
  | tarFailed
deriving DecidableEq, Repr

/-- Errors of `NewImage`. -/
inductive OpenErr where
  | notFound
  | unsupportedFormat
deriving DecidableEq, Repr

/-- Go `filepath.Ext`: scan the path backwards from its last character; stop
at a path separator; the extension starts at the first dot found. `acc` holds
the characters already scanned, in forward order. -/
def goFilepathExtAux (acc : List Char) : List Char → List Char
  | [] => []
  | c :: rest =>
    if c = '/' then []
    else if c = '.' then c :: acc
    else goFilepathExtAux (c :: acc) rest

/-- Go `filepath.Ext(path)`. -/
def goFilepathExt (p : String) : String := ⟨goFilepathExtAux [] p.data.reverse⟩

/-- Model of `NewImage(pathToImage)`: `os.Stat` existence check, then the
`.gz` extension check, then `os.Mkdir` of the random working directory.  The
second component records whether the working directory was created. -/
def NewImage (fileExists : Bool) (pathToImage : String) :
    Except OpenErr GoImage × Bool :=
  if ¬fileExists then (.error .notFound, false)
  else if goFilepathExt pathToImage = ".gz" then (.error .unsupportedFormat, false)
  else (.ok { PathToSource := pathToImage, Layers := [] }, true)

/-- Model of `(*Image).latestLayer`: error when the layer slice is empty,
otherwise sort in place by recency (most recent first) and return the head.
The second component is the image after the in-place sort. -/
def latestLayer (i : GoImage) : Except String Layer × GoImage :=
  if i.Layers.isEmpty then (.error "Image has no layers", i)
  else
    match sortLayers i.Layers with
    | [] => (.error "Image has no layers", i)
    | x :: xs => (.ok x, { i with Layers := x :: xs })

/-- The walk body of `readLayers`: fold over the walk entries in order,
appending one `Layer` per file named `layerConfigFile`, aborting the whole
walk on the first malformed layer. -/
def readLayersAux (rootBase : String) : List WalkEntry → List Layer →
    Except String (List Layer)
  | [], acc => .ok acc
  | e :: rest, acc =>
    if e.name = layerConfigFile then
      match e.content with
      | .unreadable => .error "Unexpected data schema in image"
      | .badJson => .error "Unexpected data schema in image"
      | .createdNotString => .error "Unexpected schema for created field in image layer"
      | .badTimeFormat => .error "Unexpected time schema in image layer"
      | .createdAt t =>
        readLayersAux rootBase rest (acc ++ [{ Id := layerIdOf rootBase e, Created := t }])
    else readLayersAux rootBase rest acc

/-- Result of the walk of `readLayers` over the working-copy entries. -/
def readLayersResult (rootBase : String) (files : List WalkEntry) :
    Except String (List Layer) :=
  readLayersAux rootBase files []

/-- Model of `(*Image).readLayers`: run the walk; on success replace
`i.Layers` wholesale, on error leave the image untouched. -/
def readLayers (rootBase : String) (files : List WalkEntry) (i : GoImage) :
    Except String Unit × GoImage :=
  match readLayersResult rootBase files with
  | .error e => (.error e, i)
  | .ok l => (.ok (), { i with Layers := l })

/-- Shared tail of `SetName`: write the serialized mapping to the
`repositories` path inside the working copy, then re-archive the working copy
over the source path. -/
def writeAndTar (env : Env) (i : GoImage) (st : FsState)
    (data : List (String × TagMap)) : Except RetagErr Unit × GoImage × FsState :=
  if ¬env.writeOk then (.error .repoWriteFailed, i, st)
  else if ¬env.tarOk then
    (.error .tarFailed, i, { st with working := { st.working with repo := some (.obj data) } })
  else
    (.ok (), i,
      { source := { st.working with repo := some (.obj data) },
        working := { st.working with repo := some (.obj data) } })

/-- Model of `(*Image).SetName(newName)`: lock, untar the source into the
working copy, then branch on presence of the `repositories` file.  Absent:
take the latest layer of `i.Layers` (note: the Go code never calls
`readLayers` here) and build `{newName: {"latest": id}}`.  Present: read and
parse; reject a parse failure or more than one entry; re-key the entries
under `newName`.  Finally write the file and re-archive. -/
def SetName (env : Env) (newName : String) (i : GoImage) (st : FsState) :
    Except RetagErr Unit × GoImage × FsState :=
  if ¬env.lockOk then (.error .lockFailed, i, st)
  else if ¬env.untarOk then (.error .untarFailed, i, st)
  else
    match st.source.repo with
    | none =>
      match latestLayer i with
      | (.error _, i1) => (.error .noLayers, i1, { st with working := st.source })
      | (.ok l, i1) =>
        if ¬env.newJsonOk then (.error .newRepoJsonFailed, i1, { st with working := st.source })
        else writeAndTar env i1 { st with working := st.source }
          [(newName, [("latest", l.Id)])]
    | some r =>
      if ¬env.readOk then (.error .repoReadFailed, i, { st with working := st.source })
      else
        match r with
        | .malformed => (.error .schemaErr, i, { st with working := st.source })
        | .obj entries =>
          if entries.length > 1 then (.error .schemaErr, i, { st with working := st.source })
          else if ¬env.retagJsonOk then
            (.error .retagJsonFailed, i, { st with working := st.source })
          else writeAndTar env i { st with working := st.source }
            (entries.map (fun p => (newName, p.2)))

/-! Helper lemmas. -/

theorem sortLayers_perm (l : List Layer) : List.Perm (sortLayers l) l :=
  List.perm_insertionSort createdGe l

theorem sortLayers_sorted (l : List Layer) : List.Sorted createdGe (sortLayers l) :=
  List.sorted_insertionSort createdGe l

theorem readLayersAux_ok_ids (rootBase : String) :
    ∀ (files : List WalkEntry) (acc l : List Layer),
      readLayersAux rootBase files acc = .ok l →
      l.map Layer.Id =
        acc.map Layer.Id ++
          (files.filter (fun e => e.name = layerConfigFile)).map (layerIdOf rootBase)
  | [], acc, l, h => by
    simp [readLayersAux] at h
    simp [h]
  | e :: rest, acc, l, h => by
    by_cases he : e.name = layerConfigFile
    · cases hc : e.content with
      | unreadable => simp [readLayersAux, he, hc] at h
      | badJson => simp [readLayersAux, he, hc] at h
      | createdNotString => simp [readLayersAux, he, hc] at h
      | badTimeFormat => simp [readLayersAux, he, hc] at h
      | createdAt t =>
        simp [readLayersAux, he, hc] at h
        have ih := readLayersAux_ok_ids rootBase rest
          (acc ++ [{ Id := layerIdOf rootBase e, Created := t }]) l h
        simp [he, ih]
    · simp [readLayersAux, he] at h
      have ih := readLayersAux_ok_ids rootBase rest acc l h
      simp [he, ih]

theorem setName_frame_master (env : Env) (n : String) (i : GoImage) (st : FsState) :
    (SetName env n i st).1 = .error .tarFailed ∨ (SetName env n i st).1 = .ok () ∨
    (SetName env n i st).2.2.source = st.source := by
  unfold SetName writeAndTar
  repeat' split
  all_goals simp

theorem setName_ok_repo (n : String) (i : GoImage) (st : FsState)
    (h : (SetName envAllOk n i st).1 = .ok ()) :
    ∃ m : List (String × TagMap),
      (SetName envAllOk n i st).2.2.source.repo = some (.obj m) ∧
      m.map (fun p => (n, p.2)) = m ∧ m.length ≤ 1 := by
  cases hrepo : st.source.repo with
  | none =>
    rcases hll : latestLayer i with ⟨res, i1⟩
    cases res with
    | error s => simp [SetName, envAllOk, hrepo, hll] at h
    | ok l =>
      refine ⟨[(n, [("latest", l.Id)])], ?_, by simp, by simp⟩
      simp [SetName, writeAndTar, envAllOk, hrepo, hll]
  | some r =>
    cases r with
    | malformed => simp [SetName, envAllOk, hrepo] at h
    | obj es =>
      by_cases hlen : es.length > 1
      · simp [SetName, envAllOk, hrepo, hlen] at h
      · refine ⟨es.map (fun p => (n, p.2)), ?_, ?_, ?_⟩
        · simp [SetName, writeAndTar, envAllOk, hrepo, hlen]
        · simp [List.map_map]
        · simpa using Nat.not_lt.mp hlen

/-! Claim theorems. -/

/-- C6: `latestLayer` errors exactly on an empty layer collection, and any
layer it returns has a creation time at least that of every layer in the
collection (recency ordering sorts most recent first). -/
theorem latestLayer_spec (i : GoImage) :
    ((∃ e, (latestLayer i).1 = Except.error e) ↔ i.Layers = []) ∧
    (∀ x, (latestLayer i).1 = Except.ok x → ∀ y ∈ i.Layers, y.Created ≤ x.Created) := by
  by_cases h : i.Layers.isEmpty
  · have hnil : i.Layers = [] := by simpa [List.isEmpty_iff] using h
    constructor
    · simp [latestLayer, h, hnil]
    · intro x hx
      simp [latestLayer, h] at hx
  · have hne : i.Layers ≠ [] := by simpa [List.isEmpty_iff] using h
    cases hsort : sortLayers i.Layers with
    | nil =>
      have hp : List.Perm ([] : List Layer) i.Layers := hsort ▸ sortLayers_perm i.Layers
      exact absurd hp.symm.eq_nil hne
    | cons x xs =>
      constructor
      · simp [latestLayer, h, hsort, hne]
      · intro x' hx' y hy
        have hx'' : x = x' := by
          simpa [latestLayer, h, hsort] using hx'
        subst hx''
        have hmem : y ∈ sortLayers i.Layers := (sortLayers_perm i.Layers).mem_iff.mpr hy
        rw [hsort] at hmem
        rcases List.mem_cons.mp hmem with rfl | hmem
        · exact le_refl _
        · have hs := sortLayers_sorted i.Layers
          rw [hsort] at hs
          exact List.rel_of_sorted_cons hs y hmem

/-- C6 witness: on the concrete two-layer collection the later layer is
returned and dominates, and the empty collection errors. -/
theorem latestLayer_spec_witness :
    (Layer.mk "a" 0).Created ≤ (Layer.mk "b" 5).Created ∧
    (∃ e, (latestLayer { PathToSource := "p", Layers := [] }).1 = Except.error e) :=
  ⟨(latestLayer_spec { PathToSource := "p", Layers := [⟨"a", 0⟩, ⟨"b", 5⟩] }).2
      ⟨"b", 5⟩ rfl ⟨"a", 0⟩ (by simp),
   (latestLayer_spec { PathToSource := "p", Layers := [] }).1.mpr rfl⟩

/-- C5: `NewImage` fails with the not-found error whenever no file exists at
the path, fails with the unsupported-format error whenever the file exists
but the extension is `.gz`, and in both cases no working directory is
created (the existence check runs first, so a nonexistent `.gz` path reports
not-found). -/
theorem NewImage_validation (fileExists : Bool) (p : String) :
    (fileExists = false → NewImage fileExists p = (.error .notFound, false)) ∧
    (fileExists = true → goFilepathExt p = ".gz" →
      NewImage fileExists p = (.error .unsupportedFormat, false)) := by
  constructor
  · intro h
    simp [NewImage, h]
  · intro h hg
    simp [NewImage, h, hg]

/-- C5 witness: a missing path and an existing `.gz` path, both rejected
before the working directory is created. -/
theorem NewImage_validation_witness :
    NewImage false "/images/app.tar" = (.error .notFound, false) ∧
    NewImage true "/images/app.tar.gz" = (.error .unsupportedFormat, false) :=
  ⟨(NewImage_validation false "/images/app.tar").1 rfl,
   (NewImage_validation true "/images/app.tar.gz").2 rfl (by decide)⟩

/-- C9: `readLayers` is atomic in the image's layer collection: on any walk
error the image is returned untouched, and on success the collection is
replaced wholesale by the discovered list. -/
theorem readLayers_atomic (rootBase : String) (files : List WalkEntry) (i : GoImage) :
    (∀ e, (readLayers rootBase files i).1 = .error e →
      (readLayers rootBase files i).2 = i) ∧
    (∀ l, readLayersResult rootBase files = .ok l →
      (readLayers rootBase files i).1 = .ok () ∧
        (readLayers rootBase files i).2 = { i with Layers := l }) := by
  unfold readLayers
  cases h : readLayersResult rootBase files <;> simp [h]

/-- C9 witness: a walk hitting an unparseable layer config leaves the
concrete image unchanged. -/
theorem readLayers_atomic_witness :
    (readLayers "wc" [⟨["a"], "json", .badJson⟩]
        { PathToSource := "p", Layers := [⟨"z", 9⟩] }).2 =
      { PathToSource := "p", Layers := [⟨"z", 9⟩] } :=
  (readLayers_atomic "wc" [⟨["a"], "json", .badJson⟩]
      { PathToSource := "p", Layers := [⟨"z", 9⟩] }).1
    "Unexpected data schema in image" rfl

/-- C8 counterexample: on a tree holding layer config files at `a/json` and
`b/a/json` (two directories with the same base name at different depths),
discovery succeeds yet both layers get id `"a"`: the resulting ids are not
unique, so the claim fails for arbitrary extracted trees. -/
theorem readLayers_dup_ids_cex :
    readLayersResult "workdir"
        [⟨["a"], "json", .createdAt 0⟩, ⟨["b", "a"], "json", .createdAt 1⟩] =
      .ok [⟨"a", 0⟩, ⟨"a", 1⟩] ∧
    ¬ (([(⟨"a", 0⟩ : Layer), ⟨"a", 1⟩]).map Layer.Id).Nodup := by
  constructor
  · rfl
  · decide

/-- C8 amended: when the base names of the directories containing the layer
config files are pairwise distinct (as in an archive whose layer directories
sit side by side with unique names), every layer id discovered is unique. -/
theorem readLayers_ids_unique (rootBase : String) (files : List WalkEntry)
    (l : List Layer)
    (hnd : ((files.filter (fun e => e.name = layerConfigFile)).map
      (layerIdOf rootBase)).Nodup)
    (h : readLayersResult rootBase files = .ok l) :
    (l.map Layer.Id).Nodup := by
  have hids := readLayersAux_ok_ids rootBase files [] l h
  rw [hids]
  simpa using hnd

/-- C8 witness: two layer directories with distinct names yield distinct ids. -/
theorem readLayers_ids_unique_witness :
    (([(⟨"a", 0⟩ : Layer), ⟨"b", 1⟩]).map Layer.Id).Nodup :=
  readLayers_ids_unique "wc"
    [⟨["a"], "json", .createdAt 0⟩, ⟨["b"], "json", .createdAt 1⟩]
    [⟨"a", 0⟩, ⟨"b", 1⟩] (by decide) rfl

/-- C1: the code at the failing input.  The concrete tree has one
discoverable layer (`a/json`, created at instant 5) and no `repositories`
file, and the image handle is fresh (empty `Layers`, as `NewImage` leaves
it).  Discovery would find that layer, but `SetName` never runs discovery:
it fails with the no-layers error instead of producing
`{"myapp": {"latest": "a"}}`. -/
theorem setName_skips_discovery :
    readLayersResult "wc" [⟨["a"], "json", .createdAt 5⟩] = .ok [⟨"a", 5⟩] ∧
    (SetName envAllOk "myapp" { PathToSource := "/tmp/img.tar", Layers := [] }
        { source := ⟨none, [⟨["a"], "json", .createdAt 5⟩]⟩,
          working := ⟨none, []⟩ }).1 = .error .noLayers := by
  constructor <;> rfl

/-- C2: retagging an archive whose `repositories` file holds exactly one
entry succeeds and re-keys the entry's full tag/layer-id mapping, untouched,
under the new name, discarding the old name. -/
theorem setName_single_entry (n k : String) (v : TagMap) (i : GoImage) (st : FsState)
    (hrepo : st.source.repo = some (.obj [(k, v)])) :
    (SetName envAllOk n i st).1 = .ok () ∧
    (SetName envAllOk n i st).2.2.source.repo = some (.obj [(n, v)]) := by
  constructor <;> simp [SetName, writeAndTar, envAllOk, hrepo]

/-- C2 witness: the spec's concrete scenario, `{"old": {"latest": "A", "v1":
"B"}}` retagged to `"new"`. -/
theorem setName_single_entry_witness :
    (SetName envAllOk "new" ⟨"p", []⟩
        ⟨⟨some (.obj [("old", [("latest", "A"), ("v1", "B")])]), []⟩, ⟨none, []⟩⟩).1 =
      .ok () ∧
    (SetName envAllOk "new" ⟨"p", []⟩
        ⟨⟨some (.obj [("old", [("latest", "A"), ("v1", "B")])]), []⟩, ⟨none, []⟩⟩).2.2.source.repo =
      some (.obj [("new", [("latest", "A"), ("v1", "B")])]) :=
  setName_single_entry "new" "old" [("latest", "A"), ("v1", "B")] ⟨"p", []⟩
    ⟨⟨some (.obj [("old", [("latest", "A"), ("v1", "B")])]), []⟩, ⟨none, []⟩⟩ rfl

/-- C3: a `SetName` failure with any error other than the final re-archive
failure leaves the source archive exactly as it was; only the final
re-archive step writes to the source path. -/
theorem setName_source_frame (env : Env) (n : String) (i : GoImage) (st : FsState)
    (e : RetagErr) (h : (SetName env n i st).1 = .error e) (hne : e ≠ RetagErr.tarFailed) :
    (SetName env n i st).2.2.source = st.source := by
  rcases setName_frame_master env n i st with hm | hm | hm
  · rw [h] at hm
    exact absurd (by injection hm) hne
  · rw [h] at hm
    exact absurd hm (by simp)
  · exact hm

/-- C3 witness: a failed lock acquisition leaves the concrete source tree
unchanged. -/
theorem setName_source_frame_witness :
    (SetName ⟨false, true, true, true, true, true, true⟩ "n" ⟨"p", []⟩
        ⟨⟨some (.obj [("old", [("latest", "A")])]), []⟩, ⟨none, []⟩⟩).2.2.source =
      (⟨⟨some (.obj [("old", [("latest", "A")])]), []⟩, ⟨none, []⟩⟩ : FsState).source :=
  setName_source_frame ⟨false, true, true, true, true, true, true⟩ "n" ⟨"p", []⟩
    ⟨⟨some (.obj [("old", [("latest", "A")])]), []⟩, ⟨none, []⟩⟩ .lockFailed rfl (by decide)

/-- C4: when the `repositories` file is present but fails to parse, or
parses to more than one top-level entry, `SetName` fails with the schema
error and the source archive is unmodified (given that the lock, the
extraction and the file read themselves succeed, which is what it takes to
reach the parse). -/
theorem setName_schema_error (env : Env) (n : String) (i : GoImage) (st : FsState)
    (r : RepoFileData) (hl : env.lockOk = true) (hu : env.untarOk = true)
    (hr : env.readOk = true) (hrepo : st.source.repo = some r)
    (hbad : r = .malformed ∨ ∃ es, r = .obj es ∧ es.length > 1) :
    (SetName env n i st).1 = .error .schemaErr ∧
    (SetName env n i st).2.2.source = st.source := by
  rcases hbad with rfl | ⟨es, rfl, hlen⟩
  · constructor <;> simp [SetName, hl, hu, hr, hrepo]
  · constructor <;> simp [SetName, hl, hu, hr, hrepo, hlen]

/-- C4 witness: a two-entry repositories file is rejected with the schema
error and the concrete source tree is unchanged. -/
theorem setName_schema_error_witness :
    (SetName envAllOk "n" ⟨"p", []⟩
        ⟨⟨some (.obj [("a", []), ("b", [])]), []⟩, ⟨none, []⟩⟩).1 = .error .schemaErr ∧
    (SetName envAllOk "n" ⟨"p", []⟩
        ⟨⟨some (.obj [("a", []), ("b", [])]), []⟩, ⟨none, []⟩⟩).2.2.source =
      (⟨⟨some (.obj [("a", []), ("b", [])]), []⟩, ⟨none, []⟩⟩ : FsState).source :=
  setName_schema_error envAllOk "n" ⟨"p", []⟩
    ⟨⟨some (.obj [("a", []), ("b", [])]), []⟩, ⟨none, []⟩⟩
    (.obj [("a", []), ("b", [])]) rfl rfl rfl rfl
    (Or.inr ⟨[("a", []), ("b", [])], rfl, by decide⟩)

/-- C7: after a successful `SetName n`, running `SetName n` again succeeds
and leaves the repository mapping, tag-to-layer-id content included,
identical to what the first call produced. -/
theorem setName_idempotent (n : String) (i : GoImage) (st : FsState)
    (h : (SetName envAllOk n i st).1 = .ok ()) :
    (SetName envAllOk n (SetName envAllOk n i st).2.1
        (SetName envAllOk n i st).2.2).1 = .ok () ∧
    (SetName envAllOk n (SetName envAllOk n i st).2.1
        (SetName envAllOk n i st).2.2).2.2.source.repo =
      (SetName envAllOk n i st).2.2.source.repo := by
  obtain ⟨m, hrepo1, hmap, hlen⟩ := setName_ok_repo n i st h
  have hnl : ¬(m.length > 1) := Nat.not_lt.mpr hlen
  generalize hg : SetName envAllOk n i st = out at hrepo1 ⊢
  obtain ⟨res, i1, st1⟩ := out
  have hrepo2 : st1.source.repo = some (RepoFileData.obj m) := hrepo1
  constructor
  · simp [SetName, writeAndTar, envAllOk, hrepo2, hnl]
  · simp [SetName, writeAndTar, envAllOk, hrepo2, hnl, hmap]

/-- C7 witness: retagging the concrete one-entry archive to `"new"` twice
ends with the same mapping the first call wrote. -/
theorem setName_idempotent_witness :
    (SetName envAllOk "new"
        (SetName envAllOk "new" ⟨"p", []⟩
          ⟨⟨some (.obj [("old", [("latest", "A"), ("v1", "B")])]), []⟩, ⟨none, []⟩⟩).2.1
        (SetName envAllOk "new" ⟨"p", []⟩
          ⟨⟨some (.obj [("old", [("latest", "A"), ("v1", "B")])]), []⟩, ⟨none, []⟩⟩).2.2).1 =
      .ok () ∧
    (SetName envAllOk "new"
        (SetName envAllOk "new" ⟨"p", []⟩
          ⟨⟨some (.obj [("old", [("latest", "A"), ("v1", "B")])]), []⟩, ⟨none, []⟩⟩).2.1
        (SetName envAllOk "new" ⟨"p", []⟩
          ⟨⟨some (.obj [("old", [("latest", "A"), ("v1", "B")])]), []⟩, ⟨none, []⟩⟩).2.2).2.2.source.repo =
      (SetName envAllOk "new" ⟨"p", []⟩
        ⟨⟨some (.obj [("old", [("latest", "A"), ("v1", "B")])]), []⟩, ⟨none, []⟩⟩).2.2.source.repo :=
  setName_idempotent "new" ⟨"p", []⟩
    ⟨⟨some (.obj [("old", [("latest", "A"), ("v1", "B")])]), []⟩, ⟨none, []⟩⟩ rfl

/-- C10: a present `repositories` file parsing to an object with zero
entries is not rejected: `SetName` succeeds and writes back the empty
mapping, which does not contain the new name at all. -/
theorem setName_empty_repo (n : String) (i : GoImage) (st : FsState)
    (hrepo : st.source.repo = some (.obj [])) :
    (SetName envAllOk n i st).1 = .ok () ∧
    (SetName envAllOk n i st).2.2.source.repo = some (.obj []) ∧
    ∀ es, (SetName envAllOk n i st).2.2.source.repo = some (.obj es) →
      n ∉ es.map Prod.fst := by
  refine ⟨?_, ?_, ?_⟩
  · simp [SetName, writeAndTar, envAllOk, hrepo]
  · simp [SetName, writeAndTar, envAllOk, hrepo]
  · intro es hes
    simp [SetName, writeAndTar, envAllOk, hrepo] at hes
    subst hes
    simp

/-- C10 witness: the concrete empty-object repositories file retagged to
`"n"` succeeds with the empty mapping. -/
theorem setName_empty_repo_witness :
    (SetName envAllOk "n" ⟨"p", []⟩ ⟨⟨some (.obj []), []⟩, ⟨none, []⟩⟩).1 = .ok () ∧
    (SetName envAllOk "n" ⟨"p", []⟩
        ⟨⟨some (.obj []), []⟩, ⟨none, []⟩⟩).2.2.source.repo = some (.obj []) ∧
    ∀ es, (SetName envAllOk "n" ⟨"p", []⟩
        ⟨⟨some (.obj []), []⟩, ⟨none, []⟩⟩).2.2.source.repo = some (.obj es) →
      "n" ∉ es.map Prod.fst :=
  setName_empty_repo "n" ⟨"p", []⟩ ⟨⟨some (.obj []), []⟩, ⟨none, []⟩⟩ rfl

end Dockerscope
